import Mathlib

/-!
Verification of the gox code builder (package gox) against its specification.

The development shallowly embeds the parts of the source that the checked
properties are about: the typed operand stack, the block context of the
CodeBuilder, statement emission and labels, composite literal construction
(MapLit / StructLit), assignment (doAssignWith), the binary operator
resolver (callOpFunc / BinaryOp), lazy loading of a named type underlying
(getUnderlying), and the arbitrary precision integer operations of
internal/builtin/big.go.

Collaborator code that the repository snapshot does not include (the
internal stack package, the per-variant block End methods, checkAssignType,
the goxPrefix constant, type formatting) is modelled from the specification
and marked as such in the corresponding doc comments.
-/

namespace Gox

/-- Shallow model of go/types types as used by the builder.  A named type
carries its name, the names of its methods and an optionally resolved
underlying type (nil underlying in the source corresponds to none). -/
inductive GType where
  | bool
  | string
  | int
  | byte
  | emptyInterface
  | basic (name : String)
  | tuple (elems : List GType)
  | strukt (fields : List (String × GType))
  | mapT (key elem : GType)
  | slice (elem : GType)
  | array (elem : GType) (len : Int)
  | pointer (elem : GType)
  | named (name : String) (methods : List String) (underlying : Option GType)
  | refType (t : GType)

/-- Modelled from the spec: rendering of a type in diagnostics is delegated
to the go/types printer, a collaborator outside this repository; only the
shapes that appear in the diagnostics of the checked claims are rendered. -/
def showType : GType → String
  | .bool => "bool"
  | .string => "string"
  | .int => "int"
  | .byte => "byte"
  | .emptyInterface => "interface\x7b\x7d"
  | .basic name => name
  | .tuple _ => "(tuple)"
  | .strukt _ => "struct\x7b...\x7d"
  | .mapT k v => "map[" ++ showType k ++ "]" ++ showType v
  | .slice e => "[]" ++ showType e
  | .array e n => "[" ++ toString n ++ "]" ++ showType e
  | .pointer e => "*" ++ showType e
  | .named name _ _ => name
  | .refType t => "&" ++ showType t

/-- Rendering of an optional type (a nil type prints as in Go). -/
def showOptType : Option GType → String
  | some t => showType t
  | none => "<nil>"

/-- Shallow model of the go/ast expressions the builder produces. -/
inductive Expr where
  | ident (name : String)
  | basicLit (value : String)
  | selector (x : Expr) (sel : String)
  | binary (x : Expr) (op : String) (y : Expr)
  | keyValue (key value : Expr)
  | compositeLit (ty : Option GType) (elts : List Expr)
  | call (fn : Expr) (args : List Expr)
  | typeExpr (t : GType)

/-- Modelled from the spec: source text of an expression in diagnostics is
produced by the NodeInterpreter collaborator (LoadExpr). -/
def showExpr : Expr → String
  | .ident name => name
  | .basicLit value => value
  | .selector x sel => showExpr x ++ "." ++ sel
  | .binary x op y => showExpr x ++ " " ++ op ++ " " ++ showExpr y
  | .keyValue _ _ => "(key:value)"
  | .compositeLit _ _ => "(composite literal)"
  | .call _ _ => "(call)"
  | .typeExpr t => showType t

/-- Shallow model of the go/ast statements the builder emits. -/
inductive Stmt where
  | exprStmt (x : Expr)
  | labeled (label : String) (s : Stmt)
  | assign (lhs rhs : List Expr)
  | block (body : List Stmt)
  | branch (tok : String) (label : Option String)
  | empty

/-- One operand on the stack (internal.Elem): the partial AST node, the
inferred type, an optional compile time constant (integer constants are the
only kind the checked claims need) and the optional source back pointer. -/
structure Elem where
  val : Expr
  typ : Option GType := none
  cval : Option Int := none
  src : Option Expr := none

/-- Modelled from the spec: the typed operand stack (internal.Stack, whose
source is not part of this snapshot).  The stack is a list with the top at
the end; push appends, getArgs views the top n without popping, ret pops
consume elements and pushes the result, setLen truncates. -/
def Stack := List Elem

namespace Stack

def push (s : Stack) (e : Elem) : Stack := List.append s [e]

def len (s : Stack) : Nat := List.length s

def setLen (s : Stack) (n : Nat) : Stack := List.take n s

def getArgs (s : Stack) (n : Nat) : List Elem := List.drop (len s - n) s

def popN (s : Stack) (n : Nat) : Stack := List.take (len s - n) s

def ret (s : Stack) (consume : Nat) (e : Elem) : Stack := push (popN s consume) e

end Stack

/-- A label object: types.Label (name and position) plus the used flag. -/
structure Label where
  name : String
  pos : Nat
  used : Bool

/-- The per-block context (codeBlockCtx): the stack base length recorded at
open, the accumulated statement list, the pending labeled statement and the
flow flags.  The lexical scope is not modelled: no checked claim mentions
it. -/
structure CodeBlockCtx where
  base : Nat
  stmts : List Stmt
  label : Option String
  flows : Nat

/-- The builder state the checked claims need: the operand stack and the
current block context. -/
structure CB where
  stk : Stack
  current : CodeBlockCtx

/-- CodeBuilder.emitStmt: a pending labeled statement wraps the emitted
statement and is cleared; the statement is appended to the current block.
(The comment side channel of the source is not modelled: it never changes
the statement list shape.) -/
def CB.emitStmt (p : CB) (stmt : Stmt) : CB :=
  match p.current.label with
  | some l =>
    { p with current := { p.current with
        stmts := List.append p.current.stmts [Stmt.labeled l stmt], label := none } }
  | none =>
    { p with current := { p.current with
        stmts := List.append p.current.stmts [stmt] } }

/-- CodeBuilder.Label: records the pending labeled statement wrapper. -/
def CB.labelInstr (p : CB) (l : Label) : CB :=
  { p with current := { p.current with label := some l.name } }

/-- flow flag constants of the source. -/
def flowFlagGoto : Nat := 8

/-- CodeBuilder.Goto: marks the label used, sets the goto flow flag and
emits a branch statement.  Returns the updated builder and label. -/
def CB.gotoInstr (p : CB) (l : Label) : CB × Label :=
  let l := { l with used := true }
  let p := { p with current := { p.current with flows := p.current.flows ||| flowFlagGoto } }
  (p.emitStmt (Stmt.branch ("goto") (some l.name)), l)

/-- CodeBuilder.startBlockStmt: opens a block, recording the stack length as
the new base and saving the previous context. -/
def CB.startBlockStmt (p : CB) : CB × CodeBlockCtx :=
  ({ p with current := { base := Stack.len p.stk, stmts := [], label := none, flows := 0 } },
   p.current)

/-- CodeBuilder.endBlockStmt: emits an empty statement if a label is still
pending, truncates the stack to the block base and restores the saved
context; returns the assembled statements and the flow flags. -/
def CB.endBlockStmt (p : CB) (old : CodeBlockCtx) : CB × List Stmt × Nat :=
  let flows := p.current.flows
  let p := if (p.current.label).isSome then p.emitStmt Stmt.empty else p
  let stmts := p.current.stmts
  let stk := Stack.setLen p.stk p.current.base
  ({ stk := stk, current := old }, stmts, flows)

/-- Modelled from the spec: the End method of the plain block context
(blockStmt.End is not part of this snapshot).  It closes the block through
endBlockStmt, merges the flow flags into the parent and appends the
assembled block statement to the parent statement list. -/
def CB.blockEnd (p : CB) (old : CodeBlockCtx) : CB :=
  let r := p.endBlockStmt old
  let p1 := r.1
  let stmts := r.2.1
  let flows := r.2.2
  let p2 := { p1 with current := { p1.current with flows := p1.current.flows ||| flows } }
  p2.emitStmt (Stmt.block stmts)

/-- funcBodyCtx.checkLabels: reports, for every label that was never marked
used, the diagnostic at the position of the label.  The source iterates a
map keyed by the label name; the model iterates a list (the reported set is
the same). -/
structure CodeErr where
  msg : String
  pos : Nat

def labelNotUsedMsg (name : String) : String :=
  "label " ++ name ++ " defined and not used"

def checkLabels (labels : List Label) : List CodeErr :=
  labels.filterMap fun l =>
    if !l.used then some { msg := labelNotUsedMsg l.name, pos := l.pos } else none

/-- CodeBuilder.endFuncBody: runs checkLabels on the labels of the closing
function body, then closes the block.  (Restoring the current function
pointer is not modelled: no checked claim mentions it.) -/
def CB.endFuncBody (p : CB) (labels : List Label) (old : CodeBlockCtx) :
    List CodeErr × CB × List Stmt :=
  let errs := checkLabels labels
  let r := p.endBlockStmt old
  (errs, r.1, r.2.1)

/-- CodeBuilder.EndStmt: with n the number of operands above the block base,
n = 0 emits nothing, n = 1 pops the operand and emits it as an expression
statement, n > 1 panics (modelled as an error result). -/
def CB.endStmt (p : CB) : Except String CB :=
  let n : Int := (Stack.len p.stk : Int) - (p.current.base : Int)
  if 0 < n then
    if n ≠ 1 then
      Except.error ("syntax error: unexpected newline, expecting := or = or comma")
    else
      match List.getLast? p.stk with
      | some v => Except.ok ((CB.mk (List.dropLast p.stk) p.current).emitStmt (Stmt.exprStmt v.val))
      | none => Except.error ("stack underflow")
  else Except.ok p

/-- Source text of the back pointer of an operand, as loadExpr produces it
(empty for a missing node, as in the source). -/
def srcText (e : Elem) : String :=
  match e.src with
  | some s => showExpr s
  | none => ""

/-- CodeBuilder.toIntVal: reads an integer compile time constant off an
operand, failing with the diagnostic of the source otherwise. -/
def toIntVal (v : Elem) (msg : String) : Except String Int :=
  match v.cval with
  | some i => Except.ok i
  | none => Except.error ("cannot use " ++ srcText v ++ " as " ++ msg)

/-- The element pair loop of MapLit: builds the key value expressions and,
when the map type is known (check in the source), verifies assignability of
every key and value.  assignableTo models AssignableTo (whose definition is
outside this snapshot). -/
def mapLitElts (assignableTo : Option GType → GType → Bool)
    (check : Option (GType × GType)) : List Elem → Except String (List Expr)
  | [] => Except.ok []
  | k :: v :: rest =>
    match check with
    | some (kt, vt) =>
      if !assignableTo k.typ kt then
        Except.error ("cannot use " ++ srcText k ++ " (type " ++ showOptType k.typ
          ++ ") as type " ++ showType kt ++ " in map key")
      else if !assignableTo v.typ vt then
        Except.error ("cannot use " ++ srcText v ++ " (type " ++ showOptType v.typ
          ++ ") as type " ++ showType vt ++ " in map value")
      else do
        let tail ← mapLitElts assignableTo check rest
        Except.ok (Expr.keyValue k.val v.val :: tail)
    | none => do
      let tail ← mapLitElts assignableTo none rest
      Except.ok (Expr.keyValue k.val v.val :: tail)
  | [_] => Except.error ("MapLit: invalid arity, cannot be odd -")

/-- CodeBuilder.MapLit: with a nil type and arity 0 the element type
defaults to map[string]interface, with a nil type and elements the key and
element types are inferred (boundElementType and Default are collaborators
outside this snapshot, passed as parameters bound and defaultT), with a
known map (or named map) type every key and value is checked. -/
def CB.mapLit (bound : List Elem → Nat → Nat → Nat → GType) (defaultT : GType → GType)
    (assignableTo : Option GType → GType → Bool)
    (p : CB) (typ : Option GType) (arity : Nat) : Except String CB := do
  let t : Option (GType × GType) ←
    match typ with
    | some (GType.named _ _ u) =>
      match u with
      | some (GType.mapT k v) => Except.ok (some (k, v))
      | _ => Except.error ("MapLit: named type underlying is not a map type")
    | some (GType.mapT k v) => Except.ok (some (k, v))
    | some _ => Except.error ("MapLit: typ is not a map type -")
    | none => Except.ok none
  if arity == 0 then
    match typ with
    | none =>
      let m := GType.mapT GType.string GType.emptyInterface
      Except.ok { p with stk := Stack.push p.stk ({ val := Expr.compositeLit (some m) [], typ := some m } : Elem) }
    | some ty =>
      Except.ok { p with stk := Stack.push p.stk ({ val := Expr.compositeLit (some ty) [], typ := some ty } : Elem) }
  else if arity % 2 ≠ 0 then
    Except.error ("MapLit: invalid arity, cannot be odd -")
  else if Stack.len p.stk < arity then
    Except.error ("stack underflow")
  else
    let args := Stack.getArgs p.stk arity
    match t, typ with
    | some (k, v), some ty => do
      let elts ← mapLitElts assignableTo (some (k, v)) args
      let e : Elem := { val := Expr.compositeLit (some ty) elts, typ := some ty }
      Except.ok { p with stk := Stack.ret p.stk arity e }
    | _, _ => do
      let elts ← mapLitElts assignableTo none args
      let key := bound args 0 arity 2
      let val := bound args 1 arity 2
      let m := GType.mapT (defaultT key) (defaultT val)
      let e : Elem := { val := Expr.compositeLit (some m) elts, typ := some m }
      Except.ok { p with stk := Stack.ret p.stk arity e }

/-- The key value loop of StructLit: each key operand must be an integer
constant field index in range (a negative index is a runtime range panic in
the source, modelled by the same error), and each value must be assignable
to the type of that field. -/
def structLitKeyValElts (assignableTo : Option GType → GType → Bool)
    (fields : List (String × GType)) : List Elem → Except String (List Expr)
  | [] => Except.ok []
  | k :: v :: rest => do
    let idx ← toIntVal k ("field which must be non-negative integer constant")
    if idx < 0 ∨ (fields.length : Int) ≤ idx then
      Except.error ("invalid struct field index")
    else
      match fields.get? idx.toNat with
      | none => Except.error ("invalid struct field index")
      | some (fname, fty) =>
        if !assignableTo v.typ fty then
          Except.error ("cannot use " ++ srcText v ++ " (type " ++ showOptType v.typ
            ++ ") as type " ++ showType fty ++ " in value of field " ++ fname)
        else do
          let tail ← structLitKeyValElts assignableTo fields rest
          Except.ok (Expr.keyValue (Expr.ident fname) v.val :: tail)
  | [_] => Except.error ("StructLit: invalid arity, cannot be odd in keyVal mode -")

/-- The positional loop of StructLit: the i-th value must be assignable to
the type of the i-th field. -/
def structLitElts (assignableTo : Option GType → GType → Bool) :
    List (String × GType) → List Elem → Except String (List Expr)
  | _, [] => Except.ok []
  | [], _ :: _ => Except.error ("invalid struct field index")
  | (fname, fty) :: fs, a :: rest =>
    if !assignableTo a.typ fty then
      Except.error ("cannot use " ++ srcText a ++ " (type " ++ showOptType a.typ
        ++ ") as type " ++ showType fty ++ " in value of field " ++ fname)
    else do
      let tail ← structLitElts assignableTo fs rest
      Except.ok (a.val :: tail)

/-- CodeBuilder.StructLit: resolves the struct type (through the underlying
of a named type), then in key value mode resolves indices and checks
assignability, and in positional mode requires the arity to equal the field
count unless it is zero; any other arity reports too few or too many
values.  The result replaces the consumed operands with one composite
literal operand. -/
def CB.structLit (assignableTo : Option GType → GType → Bool)
    (p : CB) (typ : GType) (arity : Nat) (keyVal : Bool) : Except String CB := do
  let fields : List (String × GType) ←
    match typ with
    | GType.named _ _ u =>
      match u with
      | some (GType.strukt fs) => Except.ok fs
      | _ => Except.error ("StructLit: named type underlying is not a struct type")
    | GType.strukt fs => Except.ok fs
    | _ => Except.error ("StructLit: typ is not a struct type -")
  let n := fields.length
  if Stack.len p.stk < arity then Except.error ("stack underflow")
  else
    let args := Stack.getArgs p.stk arity
    let elts : List Expr ←
      if keyVal then
        if arity % 2 ≠ 0 then
          Except.error ("StructLit: invalid arity, cannot be odd in keyVal mode -")
        else structLitKeyValElts assignableTo fields args
      else if arity ≠ n then
        if arity ≠ 0 then
          let fewOrMany := if arity > n then ("many") else ("few")
          Except.error ("too " ++ fewOrMany ++ " values in " ++ showType typ ++ "\x7b...\x7d")
        else Except.ok []
      else structLitElts assignableTo fields args
    let e : Elem := { val := Expr.compositeLit (some typ) elts, typ := some typ }
    Except.ok { p with stk := Stack.ret p.stk arity e }

/-- Modelled from the spec: checkAssignType (outside this snapshot)
verifies that the value on the right is assignable to the left hand side
target; assignable abstracts the assignability relation.  Applied to each
component of a tuple valued right hand side. -/
def checkAssignTuple (assignable : Option GType → Option GType → Bool) :
    List Elem → List GType → Except String Unit
  | _, [] => Except.ok ()
  | [], _ :: _ => Except.error ("stack underflow")
  | a :: rest, t :: ts =>
    if assignable a.typ (some t) then checkAssignTuple assignable rest ts
    else Except.error ("cannot use value (type " ++ showType t ++ ") as type "
      ++ showOptType a.typ ++ " in assignment")

/-- Modelled from the spec: checkAssignType applied pairwise to an
assignment with equally many sides. -/
def checkAssignPairs (assignable : Option GType → Option GType → Bool) :
    List Elem → List Elem → Except String Unit
  | _, [] => Except.ok ()
  | [], _ :: _ => Except.error ("stack underflow")
  | a :: rest, v :: vs =>
    if assignable a.typ v.typ then checkAssignPairs assignable rest vs
    else Except.error ("cannot use value (type " ++ showOptType v.typ ++ ") as type "
      ++ showOptType a.typ ++ " in assignment")

/-- CodeBuilder.doAssignWith: with one right hand operand of tuple type the
variable count must equal the tuple length, otherwise the assignment
mismatch diagnostic names the caller and both counts; with equal counts a
plain assignment is emitted; any other shape is an assignment mismatch.
getCaller models the NodeInterpreter Caller collaborator. -/
def CB.doAssignWith (assignable : Option GType → Option GType → Bool)
    (getCaller : Option Expr → String)
    (p : CB) (lhs rhs : Nat) : Except String CB := do
  if Stack.len p.stk < lhs + rhs then Except.error ("stack underflow")
  else
    let args := Stack.getArgs p.stk (lhs + rhs)
    let tupleCase : Option (Elem × List GType) :=
      if rhs == 1 then
        match args[lhs]? with
        | some a =>
          match a.typ with
          | some (GType.tuple ts) => some (a, ts)
          | _ => none
        | none => none
      else none
    match tupleCase with
    | some (a, ts) =>
      if lhs ≠ ts.length then
        Except.error ("assignment mismatch: " ++ toString lhs ++ " variables but "
          ++ getCaller a.src ++ " returns " ++ toString ts.length ++ " values")
      else do
        checkAssignTuple assignable (args.take lhs) ts
        let stmt := Stmt.assign ((args.take lhs).map Elem.val) [a.val]
        let p1 := p.emitStmt stmt
        Except.ok { p1 with stk := Stack.popN p1.stk (lhs + rhs) }
    | none =>
      if lhs == rhs then do
        checkAssignPairs assignable (args.take lhs) (args.drop lhs)
        let stmt := Stmt.assign ((args.take lhs).map Elem.val) ((args.drop lhs).map Elem.val)
        let p1 := p.emitStmt stmt
        Except.ok { p1 with stk := Stack.popN p1.stk (lhs + rhs) }
      else
        Except.error ("assignment mismatch: " ++ toString lhs ++ " variables but "
          ++ toString rhs ++ " values")

/-- The binary operator tokens the resolver handles (the binaryOps table of
the source). -/
inductive BinOpTok where
  | add | sub | mul | quo | rem
  | and | or | xor | andNot | shl | shr
  | land | lor
  | lss | leq | gtr | geq | eql | neq
  deriving DecidableEq

/-- The canonical method name suffix of each binary operator token
(the binaryOps table). -/
def binaryOps : BinOpTok → String
  | .add => "Add"
  | .sub => "Sub"
  | .mul => "Mul"
  | .quo => "Quo"
  | .rem => "Rem"
  | .and => "And"
  | .or => "Or"
  | .xor => "Xor"
  | .andNot => "AndNot"
  | .shl => "Lsh"
  | .shr => "Rsh"
  | .land => "LAnd"
  | .lor => "LOr"
  | .lss => "LT"
  | .leq => "LE"
  | .gtr => "GT"
  | .geq => "GE"
  | .eql => "EQ"
  | .neq => "NE"

/-- Modelled from the spec: the operator namespace marker (the constant
named goxPrefix in a source file outside this snapshot) is Gop_, per the
design notes and the internal/builtin/big.go comments. -/
def goxMarker : String := "Gop_"

/-- lookupMethod: whether the named type defines a method with this name. -/
def lookupMethod (methods : List String) (name : String) : Bool :=
  methods.contains name

/-- The retry loop of callOpFunc: a pointer type is dereferenced and tried
again, a named type is searched for the method; every other type (and a
named type without the method) falls out of the loop. -/
def opMethodOwner (name : String) : GType → Option String
  | GType.named n ms _ => if lookupMethod ms name then some n else none
  | GType.pointer e => opMethodOwner name e
  | _ => none

/-- The outcome of the operator resolution in callOpFunc. -/
inductive OpResolution where
  | methodCall (recvNamed : String) (methodName : String)
  | eqlBinaryExpr
  | builtinCall (name : String)
  | mismatchedTypesErr
  | builtinNotMatched
  deriving DecidableEq

/-- callOpFunc: the operator method name is the marker plus the token
suffix; it is looked up on the type of the FIRST operand only (after the
pointer deref retry loop).  If not found, == and != fall back to a direct
comparison expression when the operand types are comparable (an error
otherwise), and every other operator falls back to the builtin package
scope (a panic when even that misses).  comparable models ComparableTo and
builtins the builtin scope, both outside this snapshot; the model returns
which callee was selected, the call construction itself (matchFuncCall) is
a collaborator. -/
def callOpFuncResolve (builtins : List String)
    (comparable : Option GType → Option GType → Bool)
    (op : BinOpTok) (arg0 arg1 : Elem) : OpResolution :=
  let name := goxMarker ++ binaryOps op
  let owner : Option String :=
    match arg0.typ with
    | some t => opMethodOwner name t
    | none => none
  match owner with
  | some recv => OpResolution.methodCall recv name
  | none =>
    if op = BinOpTok.eql ∨ op = BinOpTok.neq then
      if comparable arg0.typ arg1.typ then OpResolution.eqlBinaryExpr
      else OpResolution.mismatchedTypesErr
    else if builtins.contains name then OpResolution.builtinCall name
    else OpResolution.builtinNotMatched

/-- The AST expression the selected callee produces (the result type of a
method or builtin call comes from matchFuncCall, a collaborator outside
this snapshot). -/
def resolvedCallExpr (r : OpResolution) (op : BinOpTok) (a0 a1 : Elem) : Expr :=
  match r with
  | OpResolution.methodCall _ name => Expr.call (Expr.selector a0.val name) [a1.val]
  | OpResolution.eqlBinaryExpr => Expr.binary a0.val (binaryOps op) a1.val
  | OpResolution.builtinCall name => Expr.call (Expr.ident name) [a0.val, a1.val]
  | _ => Expr.ident ("<unreachable>")

/-- CodeBuilder.BinaryOp: resolves through callOpFunc, panics with the
mismatched types diagnostic on a comparability error, and replaces the two
operands with the one result operand. -/
def CB.binaryOp (builtins : List String)
    (comparable : Option GType → Option GType → Bool)
    (p : CB) (op : BinOpTok) : Except String (CB × OpResolution) :=
  if Stack.len p.stk < 2 then Except.error ("stack underflow")
  else
    match Stack.getArgs p.stk 2 with
    | [a0, a1] =>
      match callOpFuncResolve builtins comparable op a0 a1 with
      | OpResolution.mismatchedTypesErr =>
        Except.error ("invalid operation: (mismatched types " ++ showOptType a0.typ
          ++ " and " ++ showOptType a1.typ ++ ")")
      | OpResolution.builtinNotMatched => Except.error ("TODO: operator not matched")
      | r =>
        let ty : Option GType :=
          match r with
          | OpResolution.eqlBinaryExpr => some (GType.basic ("untyped bool"))
          | _ => none
        let e : Elem := { val := resolvedCallExpr r op a0 a1, typ := ty }
        Except.ok ({ p with stk := Stack.ret p.stk 2 e }, r)
    | _ => Except.error ("stack underflow")

/-- The mutable part of a named type for the lazy load model: the
underlying slot, set at most once. -/
structure NamedState where
  underlying : Option GType

/-- CodeBuilder.getUnderlying: returns the underlying if already set, else
invokes the LoadNamed callback once and rereads the slot.  The third
component records whether the callback was invoked. -/
def getUnderlyingL (loadNamed : NamedState → NamedState) (t : NamedState) :
    Option GType × NamedState × Bool :=
  match t.underlying with
  | some u => (some u, t, false)
  | none =>
    let t1 := loadNamed t
    (t1.underlying, t1, true)

/-! internal/builtin/big.go: the bigint operations.  A *big.Int pointer is
modelled as an address into a heap of mathematical integers (math/big, the
arbitrary precision library itself, is a collaborator: its operations are
the integer operations). -/

/-- The heap of allocated big.Int cells; an address is an index. -/
abbrev Heap := List Int

/-- The value a big.Int address denotes. -/
def heapGet (h : Heap) (a : Nat) : Int := h.getD a 0

/-- new(big.Int): allocates a fresh zero cell, returning its address. -/
def heapAlloc (h : Heap) : Heap × Nat := (List.append h [0], List.length h)

/-- builtin.Gop_istmp: the temporary predicate of the baseline always
reports false. -/
def Gop_istmp (_a : Nat) : Bool := false

/-- builtin.tmpint: reuses the storage of a temporary operand when the
predicate marks one, else allocates a fresh cell. -/
def tmpint (h : Heap) (a b : Nat) : Heap × Nat :=
  if Gop_istmp a then (h, a)
  else if Gop_istmp b then (h, b)
  else heapAlloc h

/-- builtin.tmpint1: the unary variant of tmpint. -/
def tmpint1 (h : Heap) (a : Nat) : Heap × Nat :=
  if Gop_istmp a then (h, a)
  else heapAlloc h

/-- The shared shape of the binary bigint operations of big.go: the target
cell produced by tmpint receives f applied to the two operand values. -/
def bigintBinOp (f : Int → Int → Int) (h : Heap) (a b : Nat) : Heap × Nat :=
  match tmpint h a b with
  | (h1, t) => (h1.set t (f (heapGet h1 a) (heapGet h1 b)), t)

/-- The shared shape of the shift operations (second operand a width). -/
def bigintShiftOp (f : Int → Nat → Int) (h : Heap) (a : Nat) (n : Nat) : Heap × Nat :=
  match tmpint1 h a with
  | (h1, t) => (h1.set t (f (heapGet h1 a) n), t)

/-- The shared shape of the unary operations. -/
def bigintUnOp (f : Int → Int) (h : Heap) (a : Nat) : Heap × Nat :=
  match tmpint1 h a with
  | (h1, t) => (h1.set t (f (heapGet h1 a)), t)

def Gop_Add : Heap → Nat → Nat → Heap × Nat := bigintBinOp (· + ·)

def Gop_Sub : Heap → Nat → Nat → Heap × Nat := bigintBinOp (· - ·)

def Gop_Mul : Heap → Nat → Nat → Heap × Nat := bigintBinOp (· * ·)

/-- big.Int.Quo is truncated division. -/
def Gop_Quo : Heap → Nat → Nat → Heap × Nat := bigintBinOp Int.tdiv

/-- big.Int.Rem is the remainder of truncated division. -/
def Gop_Rem : Heap → Nat → Nat → Heap × Nat := bigintBinOp Int.tmod

def Gop_Or : Heap → Nat → Nat → Heap × Nat := bigintBinOp Int.lor

def Gop_Xor : Heap → Nat → Nat → Heap × Nat := bigintBinOp Int.xor

def Gop_And : Heap → Nat → Nat → Heap × Nat := bigintBinOp Int.land

def Gop_AndNot : Heap → Nat → Nat → Heap × Nat := bigintBinOp (fun x y => Int.land x (Int.lnot y))

def Gop_Lsh : Heap → Nat → Nat → Heap × Nat := bigintShiftOp (fun x n => x <<< (n : Int))

def Gop_Rsh : Heap → Nat → Nat → Heap × Nat := bigintShiftOp (fun x n => x >>> (n : Int))

def Gop_Neg : Heap → Nat → Heap × Nat := bigintUnOp (fun x => -x)

def Gop_Not : Heap → Nat → Heap × Nat := bigintUnOp Int.lnot

/-- The binary arithmetic and bitwise bigint operations of big.go. -/
def bigintBinOps : List (Heap → Nat → Nat → Heap × Nat) :=
  [Gop_Add, Gop_Sub, Gop_Mul, Gop_Quo, Gop_Rem, Gop_Or, Gop_Xor, Gop_And, Gop_AndNot]

/-- The shift operations of big.go. -/
def bigintShiftOps : List (Heap → Nat → Nat → Heap × Nat) := [Gop_Lsh, Gop_Rsh]

/-- The unary operations of big.go. -/
def bigintUnOps : List (Heap → Nat → Heap × Nat) := [Gop_Neg, Gop_Not]

/-! Claim statements and concrete states used by counterexamples and
witnesses. -/

/-- The default map literal type map[string]interface. -/
def tyMapStrIface : GType := GType.mapT GType.string GType.emptyInterface

/-- The operand MapLit(nil, 0) pushes. -/
def mapLitNilElem : Elem :=
  { val := Expr.compositeLit (some tyMapStrIface) [], typ := some tyMapStrIface }

/-- The empty composite literal operand StructLit produces for arity 0. -/
def structLitZeroElem (typ : GType) : Elem :=
  { val := Expr.compositeLit (some typ) [], typ := some typ }

/-- The composite literal operand StructLit produces in positional mode. -/
def structLitElem (typ : GType) (elts : List Expr) : Elem :=
  { val := Expr.compositeLit (some typ) elts, typ := some typ }

/-- A block context with one more appended statement. -/
def appendStmt (c : CodeBlockCtx) (s : Stmt) : CodeBlockCtx :=
  { c with stmts := List.append c.stmts [s] }

/-- A builder state with an empty stack and a fresh block context. -/
def cbEmpty : CB := { stk := ([] : List Elem), current := { base := 0, stmts := [], label := none, flows := 0 } }

/-- A builder state holding one identifier operand above base 0. -/
def cbOneOperand : CB :=
  { stk := ([{ val := Expr.ident ("x") }] : List Elem),
    current := { base := 0, stmts := [], label := none, flows := 0 } }

/-- Claim C1 as stated: with both operand types Named, BinaryOp resolves to
the method of the first operand type iff it defines it, OTHERWISE TO THE
METHOD OF THE SECOND OPERAND TYPE iff that defines it, otherwise to the
builtin of the same name. -/
def claim_C1_prop : Prop :=
  ∀ (builtins : List String) (comparable : Option GType → Option GType → Bool)
    (op : BinOpTok) (e0 e1 : Elem) (nN : String) (msN : List String) (uN : Option GType)
    (nM : String) (msM : List String) (uM : Option GType),
    e0.typ = some (GType.named nN msN uN) →
    e1.typ = some (GType.named nM msM uM) →
    callOpFuncResolve builtins comparable op e0 e1 =
      (if lookupMethod msN (goxMarker ++ binaryOps op) then
        OpResolution.methodCall nN (goxMarker ++ binaryOps op)
      else if lookupMethod msM (goxMarker ++ binaryOps op) then
        OpResolution.methodCall nM (goxMarker ++ binaryOps op)
      else OpResolution.builtinCall (goxMarker ++ binaryOps op))

/-- Claim C2 as stated, failure half: positional StructLit reports a
diagnostic for EVERY arity different from the field count. -/
def claim_C2_prop : Prop :=
  ∀ (assignableTo : Option GType → GType → Bool) (p : CB)
    (fields : List (String × GType)) (arity : Nat),
    arity ≤ Stack.len p.stk → arity ≠ fields.length →
    ∃ msg, CB.structLit assignableTo p (GType.strukt fields) arity false = Except.error msg

/-! Theorems. -/

theorem bind_ok_gox {α β : Type} (x : α) (f : α → Except String β) :
    (Except.ok x >>= f) = f x := rfl

theorem bind_error_gox {α β : Type} (e : String) (f : α → Except String β) :
    ((Except.error e : Except String α) >>= f) = Except.error e := rfl

theorem emitStmt_stk (p : CB) (s : Stmt) : (p.emitStmt s).stk = p.stk := by
  unfold CB.emitStmt
  cases p.current.label <;> rfl

theorem emitStmt_base (p : CB) (s : Stmt) :
    (p.emitStmt s).current.base = p.current.base := by
  unfold CB.emitStmt
  cases p.current.label <;> rfl

theorem endBlockStmt_stk (p : CB) (old : CodeBlockCtx) :
    (p.endBlockStmt old).1.stk = Stack.setLen p.stk p.current.base := by
  unfold CB.endBlockStmt
  by_cases h : (p.current.label).isSome <;>
    simp [h, emitStmt_stk, emitStmt_base]

theorem blockEnd_stk (p : CB) (old : CodeBlockCtx) :
    (p.blockEnd old).stk = Stack.setLen p.stk p.current.base := by
  unfold CB.blockEnd
  rw [emitStmt_stk]
  exact endBlockStmt_stk p old

/-- C3: the base recorded by startBlockStmt is the stack length at open;
for every builder state reached inside the block (any state q sharing the
recorded base, with no operation having popped below it), the stack length
at the moment the End of the block returns equals that recorded base, the
stack length at open. -/
theorem block_end_restores_stack_base (p q : CB) (old : CodeBlockCtx)
    (hbase : q.current.base = (CB.startBlockStmt p).1.current.base)
    (hlen : q.current.base ≤ Stack.len q.stk) :
    Stack.len (CB.blockEnd q old).stk = Stack.len p.stk := by
  rw [blockEnd_stk]
  have hb : (CB.startBlockStmt p).1.current.base = Stack.len p.stk := rfl
  rw [hbase, hb] at hlen ⊢
  unfold Stack.len Stack.setLen at *
  simp only [List.length_take]
  omega

theorem block_end_restores_stack_base_witness :
    Stack.len (CB.blockEnd cbOneOperand { base := 0, stmts := [], label := none, flows := 0 }).stk
      = Stack.len cbEmpty.stk := by
  have h := block_end_restores_stack_base cbEmpty cbOneOperand
    { base := 0, stmts := [], label := none, flows := 0 } (by rfl) (by decide)
  exact h

/-- C5: after Label(L), the next emitted statement becomes the labeled
statement wrapping it, appended after the unchanged earlier statements, and
the pending label is consumed. -/
theorem label_attaches_to_next_stmt (p : CB) (l : Label) (s : Stmt) :
    ((p.labelInstr l).emitStmt s).current.stmts
        = List.append p.current.stmts [Stmt.labeled l.name s]
      ∧ ((p.labelInstr l).emitStmt s).current.label = none := by
  exact ⟨rfl, rfl⟩

/-- C7: MapLit with a nil type and arity 0 succeeds, pushing exactly one
composite literal operand of type map[string]interface. -/
theorem mapLit_nil_zero (bound : List Elem → Nat → Nat → Nat → GType)
    (defaultT : GType → GType) (assignableTo : Option GType → GType → Bool) (p : CB) :
    CB.mapLit bound defaultT assignableTo p none 0 =
      Except.ok { p with stk := Stack.push p.stk mapLitNilElem } := rfl

/-- C10: at EndStmt, zero operands above the base emit nothing and leave
the state unchanged; exactly one is popped and appended as one expression
statement; more than one is the syntax error panic; and the panic branch is
unreachable whenever at most one operand lies above the base. -/
theorem endStmt_cases (p : CB) :
    (Stack.len p.stk = p.current.base → CB.endStmt p = Except.ok p) ∧
    (∀ v : Elem, p.current.label = none → Stack.len p.stk = p.current.base + 1 →
        List.getLast? p.stk = some v →
        CB.endStmt p = Except.ok (CB.mk (List.dropLast p.stk)
          { p.current with stmts := List.append p.current.stmts [Stmt.exprStmt v.val] })) ∧
    (p.current.base + 1 < Stack.len p.stk →
        CB.endStmt p = Except.error ("syntax error: unexpected newline, expecting := or = or comma")) ∧
    (Stack.len p.stk ≤ p.current.base + 1 → ∀ msg : String, CB.endStmt p ≠ Except.error msg) := by
  refine ⟨?_, ?_, ?_, ?_⟩
  · intro h
    have hc : ¬(0 < (Stack.len p.stk : Int) - (p.current.base : Int)) := by omega
    simp [CB.endStmt, hc]
  · intro v hlab hlen hv
    have hc : (0 < (Stack.len p.stk : Int) - (p.current.base : Int)) := by omega
    have hc2 : ((Stack.len p.stk : Int) - (p.current.base : Int)) = 1 := by omega
    simp [CB.endStmt, hc, hc2, hv, CB.emitStmt, hlab]
  · intro h
    have hc : (0 < (Stack.len p.stk : Int) - (p.current.base : Int)) := by omega
    have hc2 : ¬(((Stack.len p.stk : Int) - (p.current.base : Int)) = 1) := by omega
    simp [CB.endStmt, hc, hc2]
  · intro hle msg heq
    by_cases hgt : p.current.base < Stack.len p.stk
    · have hlen : Stack.len p.stk = p.current.base + 1 := by omega
      have hne : p.stk ≠ ([] : List Elem) := by
        intro hnil
        unfold Stack.len at hlen
        rw [hnil] at hlen
        simp at hlen
      obtain ⟨v, hv⟩ : ∃ v, List.getLast? p.stk = some v := by
        cases hq : List.getLast? p.stk with
        | some v => exact ⟨v, rfl⟩
        | none => exact absurd (List.getLast?_eq_none_iff.mp hq) hne
      have hc : (0 < (Stack.len p.stk : Int) - (p.current.base : Int)) := by omega
      have hc2 : ((Stack.len p.stk : Int) - (p.current.base : Int)) = 1 := by omega
      simp [CB.endStmt, hc, hc2, hv] at heq
    · have hc : ¬(0 < (Stack.len p.stk : Int) - (p.current.base : Int)) := by omega
      simp [CB.endStmt, hc] at heq

theorem endStmt_cases_witness :
    CB.endStmt cbOneOperand =
      Except.ok (CB.mk ([] : List Elem)
        { base := 0, stmts := [Stmt.exprStmt (Expr.ident ("x"))], label := none, flows := 0 }) := by
  exact (endStmt_cases cbOneOperand).2.1 { val := Expr.ident ("x") } rfl rfl rfl

theorem labelNotUsedMsg_inj {a b : String} (h : labelNotUsedMsg a = labelNotUsedMsg b) :
    a = b := by
  unfold labelNotUsedMsg at h
  have h2 := congrArg String.data h
  simp only [String.data_append, List.append_assoc] at h2
  have h3 := List.append_cancel_left h2
  have h4 := List.append_cancel_right h3
  cases a
  cases b
  exact congrArg String.mk h4

/-- C4: closing a function body reports the label defined and not used
diagnostic, at the position of the label, exactly for the labels whose used
flag is false; a label marked used by Goto carries used = true and hence is
not reported. -/
theorem unused_label_reported (p : CB) (old : CodeBlockCtx) (labels : List Label) (l : Label)
    (hmem : l ∈ labels) (hnodup : (labels.map Label.name).Nodup) :
    ((({ msg := labelNotUsedMsg l.name, pos := l.pos } : CodeErr) ∈ (p.endFuncBody labels old).1)
      ↔ l.used = false) ∧
    ((p.gotoInstr l).2.used = true) := by
  constructor
  · have hfb : (p.endFuncBody labels old).1 = checkLabels labels := rfl
    rw [hfb]
    unfold checkLabels
    rw [List.mem_filterMap]
    constructor
    · rintro ⟨l', hl', hsome⟩
      by_cases hu : l'.used = true
      · simp [hu] at hsome
      · have hu' : l'.used = false := by simpa using hu
        rw [hu'] at hsome
        simp only [Bool.not_false, if_true, Option.some.injEq, CodeErr.mk.injEq] at hsome
        have hn : l'.name = l.name := labelNotUsedMsg_inj hsome.1
        have hl'l : l' = l := List.inj_on_of_nodup_map hnodup hl' hmem hn
        rw [← hl'l]
        exact hu'
    · intro hused
      refine ⟨l, hmem, ?_⟩
      simp [hused]
  · rfl

theorem unused_label_reported_witness :
    ((({ msg := labelNotUsedMsg ("L"), pos := 5 } : CodeErr) ∈
        (cbEmpty.endFuncBody [{ name := "L", pos := 5, used := false }] cbEmpty.current).1)
      ∧ ((cbEmpty.gotoInstr { name := "L", pos := 5, used := false }).2.used = true)) := by
  have h := unused_label_reported cbEmpty cbEmpty.current
    [{ name := "L", pos := 5, used := false }] { name := "L", pos := 5, used := false }
    (by simp) (by simp)
  exact ⟨h.1.mpr rfl, h.2⟩

/-- C8: lazy loading of a named type underlying is idempotent: given that
the LoadNamed callback populates the slot on its first invocation, the two
reads agree (and are set), the state after the second read is the state
after the first, the loader is not invoked by the second read, and it is
not invoked at all when the slot was already set. -/
theorem getUnderlying_idempotent (load : NamedState → NamedState) (t : NamedState) (u : GType)
    (hload : (load t).underlying = some u) :
    ((getUnderlyingL load t).1 = (getUnderlyingL load (getUnderlyingL load t).2.1).1) ∧
    (((getUnderlyingL load t).1).isSome = true) ∧
    ((getUnderlyingL load (getUnderlyingL load t).2.1).2.1 = (getUnderlyingL load t).2.1) ∧
    ((getUnderlyingL load (getUnderlyingL load t).2.1).2.2 = false) ∧
    (t.underlying.isSome = true → (getUnderlyingL load t).2.2 = false) := by
  cases ht : t.underlying with
  | some u0 => simp [getUnderlyingL, ht]
  | none => simp [getUnderlyingL, ht, hload]

/-- C1 counterexample: the claim predicts that when the first operand type
does not define the operator method but the second one does, the operation
resolves to the method of the second operand type; the source never
consults the second operand type and resolves to the builtin. -/
theorem binaryOp_claim_counterexample : ¬ claim_C1_prop := by
  intro h
  have h2 := h ["Gop_Add"] (fun _ _ => true) BinOpTok.add
    { val := Expr.ident ("x"), typ := some (GType.named ("N") [] none) }
    { val := Expr.ident ("y"), typ := some (GType.named ("M") ["Gop_Add"] none) }
    "N" [] none ("M") ["Gop_Add"] none rfl rfl
  exact absurd h2 (by decide)

/-- C1 amended: BinaryOp resolution is a function of the operator and the
first operand type only.  With the first operand of Named type N it
resolves to the method of N iff N defines it; otherwise, for the operators
other than == and !=, it falls back to the builtin of the same name
(regardless of the second operand type), and the outcome never depends on
the second operand.  Determinism holds because the resolver is a pure
function of its inputs. -/
theorem binaryOp_first_operand_resolution (builtins : List String)
    (comparable : Option GType → Option GType → Bool) (op : BinOpTok)
    (e0 a1 a1' : Elem) (nN : String) (msN : List String) (uN : Option GType)
    (h0 : e0.typ = some (GType.named nN msN uN)) :
    ((callOpFuncResolve builtins comparable op e0 a1
        = OpResolution.methodCall nN (goxMarker ++ binaryOps op))
      ↔ lookupMethod msN (goxMarker ++ binaryOps op) = true) ∧
    (lookupMethod msN (goxMarker ++ binaryOps op) = false →
      op ≠ BinOpTok.eql → op ≠ BinOpTok.neq →
      callOpFuncResolve builtins comparable op e0 a1 =
        (if builtins.contains (goxMarker ++ binaryOps op)
          then OpResolution.builtinCall (goxMarker ++ binaryOps op)
          else OpResolution.builtinNotMatched)) ∧
    (op ≠ BinOpTok.eql → op ≠ BinOpTok.neq →
      callOpFuncResolve builtins comparable op e0 a1
        = callOpFuncResolve builtins comparable op e0 a1') := by
  refine ⟨?_, ?_, ?_⟩
  · constructor
    · intro heq
      by_cases hl : lookupMethod msN (goxMarker ++ binaryOps op) = true
      · exact hl
      · exfalso
        have hl' : lookupMethod msN (goxMarker ++ binaryOps op) = false := by simpa using hl
        simp only [callOpFuncResolve, opMethodOwner, h0, hl', if_false, Bool.false_eq_true] at heq
        split at heq <;> split at heq <;> simp_all
    · intro hl
      simp [callOpFuncResolve, opMethodOwner, h0, hl]
  · intro hl hne1 hne2
    simp [callOpFuncResolve, opMethodOwner, h0, hl, hne1, hne2]
  · intro hne1 hne2
    cases hl : lookupMethod msN (goxMarker ++ binaryOps op) <;>
      simp [callOpFuncResolve, opMethodOwner, h0, hl, hne1, hne2]

theorem binaryOp_first_operand_resolution_witness :
    callOpFuncResolve ["Gop_Add"] (fun _ _ => true) BinOpTok.add
        { val := Expr.ident ("x"), typ := some (GType.named ("N") ["Gop_Add"] none) }
        { val := Expr.ident ("y"), typ := some GType.int }
      = OpResolution.methodCall ("N") ("Gop_" ++ "Add") := by
  exact (binaryOp_first_operand_resolution ["Gop_Add"] (fun _ _ => true) BinOpTok.add
    { val := Expr.ident ("x"), typ := some (GType.named ("N") ["Gop_Add"] none) }
    { val := Expr.ident ("y"), typ := some GType.int }
    { val := Expr.ident ("y"), typ := some GType.int }
    "N" ["Gop_Add"] none rfl).1.mpr (by decide)

/-- C2 counterexample: positional StructLit on a struct with one field and
arity 0 succeeds (yielding the empty composite literal), although the claim
demands a diagnostic for every arity different from the field count. -/
theorem structLit_claim_counterexample : ¬ claim_C2_prop := by
  intro h
  obtain ⟨msg, hmsg⟩ := h (fun _ _ => true) cbEmpty [("x", GType.int)] 0
    (Nat.le_refl 0) (by decide)
  have hok : CB.structLit (fun _ _ => true) cbEmpty (GType.strukt [("x", GType.int)]) 0 false
      = Except.ok { cbEmpty with
          stk := Stack.ret cbEmpty.stk 0 (structLitZeroElem (GType.strukt [("x", GType.int)])) } := rfl
  rw [hok] at hmsg
  exact Except.noConfusion hmsg

/-- C2 amended: positional StructLit succeeds exactly when the arity equals
the field count (with every value assignable) or when the arity is zero
(the empty literal); every other arity reports the too few / too many
values diagnostic. -/
theorem structLit_positional_arity (assignableTo : Option GType → GType → Bool)
    (p : CB) (fields : List (String × GType)) (arity : Nat)
    (hlen : arity ≤ Stack.len p.stk) :
    (arity = 0 →
      CB.structLit assignableTo p (GType.strukt fields) arity false =
        Except.ok { p with stk := Stack.ret p.stk 0 (structLitZeroElem (GType.strukt fields)) }) ∧
    (0 < arity → arity < fields.length →
      CB.structLit assignableTo p (GType.strukt fields) arity false =
        Except.error ("too few values in " ++ showType (GType.strukt fields) ++ "\x7b...\x7d")) ∧
    (fields.length < arity →
      CB.structLit assignableTo p (GType.strukt fields) arity false =
        Except.error ("too many values in " ++ showType (GType.strukt fields) ++ "\x7b...\x7d")) ∧
    (∀ elts, arity = fields.length →
      structLitElts assignableTo fields (Stack.getArgs p.stk arity) = Except.ok elts →
      CB.structLit assignableTo p (GType.strukt fields) arity false =
        Except.ok { p with stk := Stack.ret p.stk arity (structLitElem (GType.strukt fields) elts) }) := by
  have hnl : ¬(Stack.len p.stk < arity) := by omega
  refine ⟨?_, ?_, ?_, ?_⟩
  · intro h0
    subst h0
    have hargs : Stack.getArgs p.stk 0 = ([] : List Elem) := by
      unfold Stack.getArgs Stack.len
      simp [List.drop_length]
    by_cases hn : (0 : Nat) = fields.length
    · simp [CB.structLit, hnl, ← hn, hargs, structLitElts, structLitZeroElem, bind_ok_gox]
    · simp [CB.structLit, hnl, hn, structLitZeroElem, bind_ok_gox]
  · intro hpos hlt
    have hne : arity ≠ fields.length := by omega
    have hnz : arity ≠ 0 := by omega
    have hgt : ¬(arity > fields.length) := by omega
    simp [CB.structLit, hnl, hne, hnz, hgt, bind_ok_gox, bind_error_gox]
  · intro hlt
    have hne : arity ≠ fields.length := by omega
    have hnz : arity ≠ 0 := by omega
    have hgt : arity > fields.length := by omega
    simp [CB.structLit, hnl, hne, hnz, hgt, bind_ok_gox, bind_error_gox]
  · intro elts heq helts
    subst heq
    simp [CB.structLit, hnl, helts, structLitElem, bind_ok_gox]

theorem structLit_positional_arity_witness :
    CB.structLit (fun _ _ => true)
        (CB.mk ([{ val := Expr.ident ("x") }, { val := Expr.ident ("y") }] : List Elem)
          { base := 0, stmts := [], label := none, flows := 0 })
        (GType.strukt [("x", GType.int)]) 2 false
      = Except.error ("too many values in " ++ showType (GType.strukt [("x", GType.int)]) ++ "\x7b...\x7d") := by
  exact (structLit_positional_arity (fun _ _ => true)
    (CB.mk ([{ val := Expr.ident ("x") }, { val := Expr.ident ("y") }] : List Elem)
      { base := 0, stmts := [], label := none, flows := 0 })
    [("x", GType.int)] 2 (by decide)).2.2.1 (by decide)

/-- C6: with k variables on the left and one call result of tuple type on
the right, doAssignWith reports the assignment mismatch diagnostic naming
the caller and both counts whenever the tuple length differs from k, and
emits exactly one assignment statement (popping all consumed operands)
when they agree and every component is assignable. -/
theorem assign_tuple_arity (assignable : Option GType → Option GType → Bool)
    (getCaller : Option Expr → String) (p : CB) (k : Nat) (a : Elem) (ts : List GType)
    (hlab : p.current.label = none)
    (hlen : k + 1 ≤ Stack.len p.stk)
    (ha : (Stack.getArgs p.stk (k + 1))[k]? = some a)
    (hts : a.typ = some (GType.tuple ts)) :
    (ts.length ≠ k →
      CB.doAssignWith assignable getCaller p k 1 =
        Except.error ("assignment mismatch: " ++ toString k ++ " variables but "
          ++ getCaller a.src ++ " returns " ++ toString ts.length ++ " values")) ∧
    (ts.length = k →
      checkAssignTuple assignable ((Stack.getArgs p.stk (k + 1)).take k) ts = Except.ok () →
      CB.doAssignWith assignable getCaller p k 1 =
        Except.ok (CB.mk (Stack.popN p.stk (k + 1))
          (appendStmt p.current
            (Stmt.assign (((Stack.getArgs p.stk (k + 1)).take k).map Elem.val) [a.val])))) := by
  have hnl : ¬(Stack.len p.stk < k + 1) := by omega
  constructor
  · intro hne
    have hne' : k ≠ ts.length := fun hk => hne hk.symm
    simp [CB.doAssignWith, hnl, ha, hts, hne', bind_ok_gox]
  · intro heq hchk
    simp [CB.doAssignWith, hnl, ha, hts, heq, hchk, CB.emitStmt, hlab, bind_ok_gox, appendStmt]

theorem assign_tuple_arity_witness :
    CB.doAssignWith (fun _ _ => true) (fun _ => "f")
        (CB.mk ([{ val := Expr.ident ("x") }, { val := Expr.ident ("y") },
          { val := Expr.call (Expr.ident ("f")) [],
            typ := some (GType.tuple [GType.int, GType.int, GType.int]) }] : List Elem)
          { base := 0, stmts := [], label := none, flows := 0 }) 2 1
      = Except.error ("assignment mismatch: 2 variables but f returns 3 values") := by
  have h := (assign_tuple_arity (fun _ _ => true) (fun _ => "f")
    (CB.mk ([{ val := Expr.ident ("x") }, { val := Expr.ident ("y") },
      { val := Expr.call (Expr.ident ("f")) [],
        typ := some (GType.tuple [GType.int, GType.int, GType.int]) }] : List Elem)
      { base := 0, stmts := [], label := none, flows := 0 }) 2
    { val := Expr.call (Expr.ident ("f")) [],
      typ := some (GType.tuple [GType.int, GType.int, GType.int]) }
    [GType.int, GType.int, GType.int] rfl (by decide) rfl rfl).1 (by decide)
  exact h

theorem getUnderlying_idempotent_witness :
    ((getUnderlyingL (fun _ => ({ underlying := some GType.int } : NamedState))
        { underlying := none }).1
      = (getUnderlyingL (fun _ => ({ underlying := some GType.int } : NamedState))
          (getUnderlyingL (fun _ => ({ underlying := some GType.int } : NamedState))
            { underlying := none }).2.1).1) := by
  exact (getUnderlying_idempotent (fun _ => { underlying := some GType.int })
    { underlying := none } GType.int rfl).1

theorem set_append_len (h : List Int) (z v : Int) :
    (List.append h [z]).set h.length v = List.append h [v] := by
  induction h with
  | nil => rfl
  | cons x xs ih => exact congrArg (List.cons x) ih

theorem getD_append_lt (h l : List Int) (a : Nat) (ha : a < h.length) (d : Int) :
    (List.append h l).getD a d = h.getD a d := by
  induction h generalizing a with
  | nil => simp at ha
  | cons x xs ih =>
    cases a with
    | zero => rfl
    | succ n =>
      have hn : n < xs.length := by simpa using ha
      exact ih n hn

theorem bigintBinOp_spec (f : Int → Int → Int) (h : Heap) (a b : Nat)
    (ha : a < h.length) (hb : b < h.length) :
    (bigintBinOp f h a b).2 = h.length ∧
    heapGet (bigintBinOp f h a b).1 a = heapGet h a ∧
    heapGet (bigintBinOp f h a b).1 b = heapGet h b := by
  have hga : heapGet (List.append h [0]) a = heapGet h a := getD_append_lt h [0] a ha 0
  have hgb : heapGet (List.append h [0]) b = heapGet h b := getD_append_lt h [0] b hb 0
  have key : bigintBinOp f h a b
      = (List.set (List.append h [0]) (List.length h)
          (f (heapGet (List.append h [0]) a) (heapGet (List.append h [0]) b)), List.length h) := rfl
  rw [key, hga, hgb, set_append_len h 0 (f (heapGet h a) (heapGet h b))]
  exact ⟨rfl, getD_append_lt h _ a ha 0, getD_append_lt h _ b hb 0⟩

theorem bigintShiftOp_spec (f : Int → Nat → Int) (h : Heap) (a n : Nat)
    (ha : a < h.length) :
    (bigintShiftOp f h a n).2 = h.length ∧
    heapGet (bigintShiftOp f h a n).1 a = heapGet h a := by
  have hga : heapGet (List.append h [0]) a = heapGet h a := getD_append_lt h [0] a ha 0
  have key : bigintShiftOp f h a n
      = (List.set (List.append h [0]) (List.length h)
          (f (heapGet (List.append h [0]) a) n), List.length h) := rfl
  rw [key, hga, set_append_len h 0 (f (heapGet h a) n)]
  exact ⟨rfl, getD_append_lt h _ a ha 0⟩

theorem bigintUnOp_spec (f : Int → Int) (h : Heap) (a : Nat) (ha : a < h.length) :
    (bigintUnOp f h a).2 = h.length ∧
    heapGet (bigintUnOp f h a).1 a = heapGet h a := by
  have hga : heapGet (List.append h [0]) a = heapGet h a := getD_append_lt h [0] a ha 0
  have key : bigintUnOp f h a
      = (List.set (List.append h [0]) (List.length h)
          (f (heapGet (List.append h [0]) a)), List.length h) := rfl
  rw [key, hga, set_append_len h 0 (f (heapGet h a))]
  exact ⟨rfl, getD_append_lt h _ a ha 0⟩

/-- C9: the temporary predicate of the baseline is constantly false, so
every binary, shift and unary bigint operation of big.go writes its result
into a freshly allocated cell (the address is the old heap length, hence
not a previously valid address) and leaves the numeric values of its
operands unchanged. -/
theorem bigint_ops_fresh_and_frame :
    (∀ x, Gop_istmp x = false) ∧
    (∀ op ∈ bigintBinOps, ∀ (h : Heap) (a b : Nat), a < h.length → b < h.length →
      ((op h a b).2 = h.length ∧ heapGet (op h a b).1 a = heapGet h a ∧
        heapGet (op h a b).1 b = heapGet h b)) ∧
    (∀ op ∈ bigintShiftOps, ∀ (h : Heap) (a n : Nat), a < h.length →
      ((op h a n).2 = h.length ∧ heapGet (op h a n).1 a = heapGet h a)) ∧
    (∀ op ∈ bigintUnOps, ∀ (h : Heap) (a : Nat), a < h.length →
      ((op h a).2 = h.length ∧ heapGet (op h a).1 a = heapGet h a)) := by
  refine ⟨fun _ => rfl, ?_, ?_, ?_⟩
  · intro op hop h a b ha hb
    simp only [bigintBinOps, List.mem_cons, List.not_mem_nil, or_false] at hop
    rcases hop with rfl | rfl | rfl | rfl | rfl | rfl | rfl | rfl | rfl
    all_goals exact bigintBinOp_spec _ h a b ha hb
  · intro op hop h a n ha
    simp only [bigintShiftOps, List.mem_cons, List.not_mem_nil, or_false] at hop
    rcases hop with rfl | rfl
    all_goals exact bigintShiftOp_spec _ h a n ha
  · intro op hop h a ha
    simp only [bigintUnOps, List.mem_cons, List.not_mem_nil, or_false] at hop
    rcases hop with rfl | rfl
    all_goals exact bigintUnOp_spec _ h a ha

theorem bigint_ops_fresh_and_frame_witness :
    ((Gop_Add [3, 4] 0 1).2 = 2 ∧ heapGet (Gop_Add [3, 4] 0 1).1 0 = 3 ∧
      heapGet (Gop_Add [3, 4] 0 1).1 1 = 4) := by
  exact bigint_ops_fresh_and_frame.2.1 Gop_Add (List.Mem.head _) [3, 4] 0 1
    (by decide) (by decide)

end Gox

